import Mathlib

/-!
Verification development for the Turkish Check Analyzer frontend
(src/App.tsx). The client-side pipeline is shallowly embedded:

* JavaScript strings are modelled as lists of Unicode code points
  (JStr); the ASCII case mappings used by the source's regular
  expressions and toLowerCase calls are modelled arithmetically.
* The React component's useState cells are collected into an AppState
  record; each handler becomes a pure state transformer.  Network I/O
  is modelled by environments mapping each file to its read/fetch
  outcome, and the list of analysis-endpoint calls actually issued is
  returned alongside the new state.
* jsPDF geometry values (millimetres) are modelled as integers; the
  pagination logic of generatePdfReport is embedded as a fold over the
  emitted content blocks.
-/

/-- JStr models a JavaScript string as its list of Unicode code points. -/
abbrev JStr := List Nat

/-- Code-point list of a Lean string literal, used to transcribe the
string literals appearing in src/App.tsx. -/
def str (s : String) : JStr := s.toList.map Char.toNat

/-- ASCII uppercase letter test, the character class matched by the
source's regular expression [A-Z]. -/
def isUpperCode (c : Nat) : Bool := decide (65 ≤ c ∧ c ≤ 90)

/-- ASCII lowercase letter test. -/
def isLowerCode (c : Nat) : Bool := decide (97 ≤ c ∧ c ≤ 122)

/-- ASCII digit test. -/
def isDigitCode (c : Nat) : Bool := decide (48 ≤ c ∧ c ≤ 57)

/-- Word-character test, the character class matched by the source's
regular expression token for word characters: letters, digits and the
underscore (code point 95). -/
def isWordCode (c : Nat) : Bool :=
  isUpperCode c || isLowerCode c || isDigitCode c || c == 95

/-- Whitespace test modelling the whitespace class used by the
source's trim and whitespace regular expressions (ASCII space, tab,
line feed, vertical tab, form feed, carriage return). -/
def isSpaceCode (c : Nat) : Bool :=
  c == 32 || c == 9 || c == 10 || c == 11 || c == 12 || c == 13

/-- ASCII model of the JavaScript toLowerCase mapping on one code
point: uppercase letters shift down by 32, everything else is kept. -/
def toLowerCode (c : Nat) : Nat := if isUpperCode c then c + 32 else c

/-- ASCII model of the JavaScript toUpperCase mapping on one code
point: lowercase letters shift up by 32, everything else is kept. -/
def toUpperCode (c : Nat) : Nat := if isLowerCode c then c - 32 else c

/-- Lowercasing a whole string, modelling message.toLowerCase(). -/
def lowerJStr (s : JStr) : JStr := s.map toLowerCode

/-- Boolean prefix test on code-point lists. -/
def jsStartsWith : JStr → JStr → Bool
  | [], _ => true
  | _ :: _, [] => false
  | p :: ps, c :: cs => (p == c) && jsStartsWith ps cs

/-- Boolean substring test on code-point lists, modelling the
JavaScript String.includes semantics used via the source's calls to
includes on lowercased messages. -/
def jsContains : JStr → JStr → Bool
  | pat, [] => jsStartsWith pat []
  | pat, c :: cs => jsStartsWith pat (c :: cs) || jsContains pat cs

theorem jsStartsWith_iff (p s : JStr) : jsStartsWith p s = true ↔ p <+: s := by
  induction p generalizing s with
  | nil => simp [jsStartsWith]
  | cons a ps ih =>
    cases s with
    | nil => simp [jsStartsWith]
    | cons c cs =>
      simp only [jsStartsWith, Bool.and_eq_true, beq_iff_eq, ih, List.cons_prefix_cons]

theorem jsContains_iff (p s : JStr) : jsContains p s = true ↔ p <:+: s := by
  induction s with
  | nil =>
    simp only [jsContains, jsStartsWith_iff, List.prefix_nil, List.infix_nil]
  | cons c cs ih =>
    simp only [jsContains, Bool.or_eq_true, jsStartsWith_iff, ih, List.infix_cons_iff]

/-- Setup-error classifier from src/App.tsx, checkForSetupError
(lines 93-105): the message is lowercased and the setup-instructions
modal is triggered exactly when this predicate holds.  The source
performs the side effect setShowSetupModal(true) under this
condition; the predicate itself is the decision logic. -/
def checkForSetupError (errorMessage : JStr) : Bool :=
  let lowerErrorMessage := lowerJStr errorMessage
  jsContains (str ("tesseract")) lowerErrorMessage ||
  jsContains (str ("easyocr")) lowerErrorMessage ||
  jsContains (str ("pytesseract")) lowerErrorMessage ||
  jsContains (str ("ocr tool")) lowerErrorMessage ||
  (jsContains (str ("setup")) lowerErrorMessage &&
    jsContains (str ("incomplete")) lowerErrorMessage)

theorem toLowerCode_idem (c : Nat) : toLowerCode (toLowerCode c) = toLowerCode c := by
  simp only [toLowerCode, isUpperCode]
  split
  · rename_i h
    rw [if_neg]
    simp only [decide_eq_true_eq] at h
    simp only [decide_eq_true_eq]
    omega
  · rfl

theorem lowerJStr_idem (s : JStr) : lowerJStr (lowerJStr s) = lowerJStr s := by
  simp only [lowerJStr, List.map_map]
  apply List.map_congr_left
  intro c _
  exact toLowerCode_idem c

/-- Claim C6: the setup-issue classifier returns true for a message m
iff lowercase(m) contains one of the substrings tesseract, easyocr,
pytesseract, ocr tool, or contains both setup and incomplete; it is
case-insensitive (classifying m and lowercase(m) agree); and on the
three examples: Tesseract not found classifies true, Model timeout
false, Setup incomplete: OCR missing true. -/
theorem checkForSetupError_spec :
    (∀ m : JStr,
      (checkForSetupError m = true ↔
        (str ("tesseract") <:+: lowerJStr m ∨
         str ("easyocr") <:+: lowerJStr m ∨
         str ("pytesseract") <:+: lowerJStr m ∨
         str ("ocr tool") <:+: lowerJStr m ∨
         (str ("setup") <:+: lowerJStr m ∧
          str ("incomplete") <:+: lowerJStr m))) ∧
      checkForSetupError (lowerJStr m) = checkForSetupError m) ∧
    checkForSetupError (str ("Tesseract not found")) = true ∧
    checkForSetupError (str ("Model timeout")) = false ∧
    checkForSetupError (str ("Setup incomplete: OCR missing")) = true := by
  refine ⟨fun m => ⟨?_, ?_⟩, by decide, by decide, by decide⟩
  · simp only [checkForSetupError, Bool.or_eq_true, Bool.and_eq_true, jsContains_iff,
      or_assoc]
  · simp only [checkForSetupError, lowerJStr_idem]

/-!
The PDF key formatter from src/App.tsx, formatKeyForPdf (lines
324-332).  Each of the five chained string operations of the source is
embedded separately, in the order the source applies them.
-/

/-- First replace of formatKeyForPdf: a space (code 32) is inserted
before every ASCII uppercase letter. -/
def insertSpaceBeforeCaps : JStr → JStr
  | [] => []
  | c :: cs =>
    (if isUpperCode c then [32, c] else [c]) ++ insertSpaceBeforeCaps cs

/-- Second replace of formatKeyForPdf: each underscore (code 95)
becomes a space. -/
def underscoreToSpace (s : JStr) : JStr :=
  s.map (fun c => if c == 95 then 32 else c)

/-- Model of the JavaScript String.trim call: whitespace is dropped
from both ends. -/
def jsTrim (s : JStr) : JStr :=
  ((s.dropWhile isSpaceCode).reverse.dropWhile isSpaceCode).reverse

/-- Third replace of formatKeyForPdf: the leading character is
uppercased when it is a word character. -/
def capFirst : JStr → JStr
  | [] => []
  | c :: cs => if isWordCode c then toUpperCode c :: cs else c :: cs

/-- Fourth replace of formatKeyForPdf: the global left-to-right,
non-overlapping scan for a whitespace character followed by a word
character, uppercasing the word character of each match. -/
def capAfterSpace : JStr → JStr
  | [] => []
  | [c] => [c]
  | c :: d :: rest =>
    if isSpaceCode c && isWordCode d then
      c :: toUpperCode d :: capAfterSpace rest
    else
      c :: capAfterSpace (d :: rest)

/-- PDF key formatter from src/App.tsx (lines 324-332): keys equal to
iban up to case become IBAN; otherwise a space is inserted before each
capital, underscores become spaces, the result is trimmed, and the
first character as well as each character following a whitespace is
uppercased. -/
def formatKeyForPdf (key : JStr) : JStr :=
  if lowerJStr key = str ("iban") then str ("IBAN")
  else
    capAfterSpace (capFirst (jsTrim (underscoreToSpace
      (insertSpaceBeforeCaps key))))

/-- Claim C7: formatKeyForPdf sends amount_number to Amount Number,
every key case-insensitively equal to iban to IBAN, and checkNumber to
Check Number. -/
theorem formatKeyForPdf_examples :
    formatKeyForPdf (str ("amount_number")) = str ("Amount Number") ∧
    (∀ k : JStr, lowerJStr k = str ("iban") →
      formatKeyForPdf k = str ("IBAN")) ∧
    formatKeyForPdf (str ("checkNumber")) = str ("Check Number") := by
  refine ⟨by decide, fun k h => ?_, by decide⟩
  simp only [formatKeyForPdf, if_pos h]

/-- Witness for claim C7: the key iBaN is case-insensitively iban and
is formatted as IBAN. -/
theorem formatKeyForPdf_examples_witness :
    lowerJStr (str ("iBaN")) = str ("iban") ∧
    formatKeyForPdf (str ("iBaN")) = str ("IBAN")  :=
  ⟨by decide, formatKeyForPdf_examples.2.1 (str ("iBaN")) (by decide)⟩

/-- Counterexample to claim C8: the key formatter is not idempotent;
formatting checkNumber yields Check Number, but formatting the result
again inserts a second space before the capital N. -/
theorem formatKeyForPdf_not_idempotent :
    formatKeyForPdf (formatKeyForPdf (str ("checkNumber"))) ≠
      formatKeyForPdf (str ("checkNumber")) := by decide

theorem toLowerCode_toUpperCode (c : Nat) :
    toLowerCode (toUpperCode c) = toLowerCode c := by
  simp only [toUpperCode, toLowerCode, isUpperCode, isLowerCode, decide_eq_true_eq]
  split_ifs <;> omega

theorem isSpaceCode_toUpperCode (c : Nat) (h : isSpaceCode c = false) :
    isSpaceCode (toUpperCode c) = false := by
  simp only [toUpperCode, isSpaceCode, isLowerCode, decide_eq_true_eq,
    Bool.or_eq_false_iff, beq_eq_false_iff_ne, ne_eq] at h ⊢
  split_ifs
  all_goals omega

theorem isUpperCode_toUpperCode (c : Nat) (h : isLowerCode c = true) :
    isUpperCode (toUpperCode c) = true := by
  simp only [isLowerCode, decide_eq_true_eq] at h
  simp only [toUpperCode, isUpperCode, isLowerCode, decide_eq_true_eq,
    decide_eq_true_eq]
  split_ifs
  all_goals omega

theorem toUpperCode_of_not_lower (c : Nat) (h : isLowerCode c = false) :
    toUpperCode c = c := by
  simp [toUpperCode, h]

theorem upper_ne_underscore (c : Nat) (h : isUpperCode c = true) : c ≠ 95 := by
  simp only [isUpperCode, decide_eq_true_eq] at h
  omega

theorem isSpaceCode_of_upper (c : Nat) (h : isUpperCode c = true) :
    isSpaceCode c = false := by
  simp only [isUpperCode, decide_eq_true_eq] at h
  simp only [isSpaceCode, Bool.or_eq_false_iff, beq_eq_false_iff_ne, ne_eq]
  omega

theorem isLowerCode_of_upper (c : Nat) (h : isUpperCode c = true) :
    isLowerCode c = false := by
  simp only [isUpperCode, decide_eq_true_eq] at h
  simp only [isLowerCode, decide_eq_false_iff_not]
  omega

theorem isWordCode_of_upper (c : Nat) (h : isUpperCode c = true) :
    isWordCode c = true := by
  simp [isWordCode, h]

theorem insertSpaceBeforeCaps_eq_self (s : JStr)
    (h : ∀ c ∈ s, isUpperCode c = false) : insertSpaceBeforeCaps s = s := by
  induction s with
  | nil => rfl
  | cons c cs ih =>
    have hc : isUpperCode c = false := h c (List.mem_cons_self _ _)
    simp only [insertSpaceBeforeCaps, hc, Bool.false_eq_true, if_false,
      List.singleton_append, List.cons.injEq, true_and]
    exact ih (fun x hx => h x (List.mem_cons_of_mem _ hx))

theorem underscoreToSpace_eq_self (s : JStr) (h : ∀ c ∈ s, c ≠ 95) :
    underscoreToSpace s = s := by
  induction s with
  | nil => rfl
  | cons c cs ih =>
    have hc : c ≠ 95 := h c (List.mem_cons_self _ _)
    simp only [underscoreToSpace, List.map_cons, List.cons.injEq]
    constructor
    · simp [hc]
    · exact ih (fun x hx => h x (List.mem_cons_of_mem _ hx))

theorem dropWhile_eq_self_of_none (p : Nat → Bool) (s : JStr)
    (h : ∀ c ∈ s, p c = false) : s.dropWhile p = s := by
  cases s with
  | nil => rfl
  | cons c cs =>
    rw [List.dropWhile_cons, if_neg (by simp [h c (List.mem_cons_self _ _)])]

theorem jsTrim_eq_self (s : JStr) (h : ∀ c ∈ s, isSpaceCode c = false) :
    jsTrim s = s := by
  unfold jsTrim
  rw [dropWhile_eq_self_of_none _ _ h,
      dropWhile_eq_self_of_none _ _ (fun c hc => h c (List.mem_reverse.mp hc)),
      List.reverse_reverse]

theorem jsTrim_cons_space (rest : JStr)
    (h : ∀ c ∈ rest, isSpaceCode c = false) : jsTrim (32 :: rest) = rest := by
  unfold jsTrim
  rw [List.dropWhile_cons, if_pos (by decide),
      dropWhile_eq_self_of_none _ _ h,
      dropWhile_eq_self_of_none _ _ (fun c hc => h c (List.mem_reverse.mp hc)),
      List.reverse_reverse]

theorem capAfterSpace_eq_self :
    ∀ s : JStr, (∀ c ∈ s, isSpaceCode c = false) → capAfterSpace s = s
  | [], _ => rfl
  | [_], _ => rfl
  | c :: d :: rest, h => by
    have hc : isSpaceCode c = false := h c (List.mem_cons_self _ _)
    rw [capAfterSpace, if_neg (by simp [hc]),
      capAfterSpace_eq_self (d :: rest) (fun x hx => h x (List.mem_cons_of_mem _ hx))]

theorem capFirst_no_space (s : JStr) (h : ∀ c ∈ s, isSpaceCode c = false) :
    ∀ c ∈ capFirst s, isSpaceCode c = false := by
  cases s with
  | nil => intro c hc; cases hc
  | cons a cs =>
    intro c hc
    simp only [capFirst] at hc
    split at hc
    · rcases List.mem_cons.mp hc with hh | ht
      · subst hh
        exact isSpaceCode_toUpperCode a (h a (List.mem_cons_self _ _))
      · exact h c (List.mem_cons_of_mem _ ht)
    · exact h c hc

/-- On keys with no uppercase letter, no underscore and no whitespace,
one application of formatKeyForPdf only runs the iban special case or
uppercases the first character. -/
theorem formatKeyForPdf_plain (k : JStr)
    (hk : ∀ c ∈ k, isUpperCode c = false ∧ c ≠ 95 ∧ isSpaceCode c = false)
    (hib : ¬ lowerJStr k = str ("iban")) :
    formatKeyForPdf k = capFirst k := by
  rw [formatKeyForPdf, if_neg hib,
      insertSpaceBeforeCaps_eq_self k (fun c hc => (hk c hc).1),
      underscoreToSpace_eq_self k (fun c hc => (hk c hc).2.1),
      jsTrim_eq_self k (fun c hc => (hk c hc).2.2),
      capAfterSpace_eq_self (capFirst k)
        (capFirst_no_space k (fun c hc => (hk c hc).2.2))]

/-- Helper for the amended claim C8: idempotence of formatKeyForPdf
on keys containing no ASCII uppercase letter, no underscore and no
whitespace. -/
theorem formatKeyForPdf_idem_plain_aux (k : JStr)
    (hk : ∀ c ∈ k, isUpperCode c = false ∧ c ≠ 95 ∧ isSpaceCode c = false) :
    formatKeyForPdf (formatKeyForPdf k) = formatKeyForPdf k := by
  by_cases hib : lowerJStr k = str ("iban")
  · have h1 : formatKeyForPdf k = str ("IBAN") := by
      rw [formatKeyForPdf, if_pos hib]
    rw [h1]
    decide
  · rw [formatKeyForPdf_plain k hk hib]
    cases k with
    | nil => decide
    | cons c cs =>
      have hcs : ∀ x ∈ cs, isUpperCode x = false ∧ x ≠ 95 ∧ isSpaceCode x = false :=
        fun x hx => hk x (List.mem_cons_of_mem _ hx)
      cases hw : isWordCode c with
      | false =>
        -- first character is not a word character: capFirst changes nothing
        have hcap : capFirst (c :: cs) = c :: cs := by simp [capFirst, hw]
        rw [hcap, formatKeyForPdf_plain (c :: cs) hk hib, hcap]
      | true =>
        cases hl : isLowerCode c with
        | false =>
          -- word character that is not a lowercase letter: unchanged
          have hcap : capFirst (c :: cs) = c :: cs := by
            simp [capFirst, hw, toUpperCode_of_not_lower c hl]
          rw [hcap, formatKeyForPdf_plain (c :: cs) hk hib, hcap]
        | true =>
          -- lowercase first letter: it becomes an uppercase letter
          have hcap : capFirst (c :: cs) = toUpperCode c :: cs := by
            simp [capFirst, hw]
          rw [hcap]
          have hu : isUpperCode (toUpperCode c) = true := isUpperCode_toUpperCode c hl
          have hunospace : ∀ x ∈ toUpperCode c :: cs, isSpaceCode x = false := by
            intro x hx
            rcases List.mem_cons.mp hx with hh | ht
            · subst hh; exact isSpaceCode_of_upper _ hu
            · exact (hcs x ht).2.2
          have hib2 : ¬ lowerJStr (toUpperCode c :: cs) = str ("iban") := by
            intro hcontra
            apply hib
            simpa only [lowerJStr, List.map_cons, toLowerCode_toUpperCode] using hcontra
          rw [formatKeyForPdf, if_neg hib2]
          have hins : insertSpaceBeforeCaps (toUpperCode c :: cs) =
              32 :: toUpperCode c :: cs := by
            simp [insertSpaceBeforeCaps, hu,
              insertSpaceBeforeCaps_eq_self cs (fun x hx => (hcs x hx).1)]
          have hund : underscoreToSpace (32 :: toUpperCode c :: cs) =
              32 :: toUpperCode c :: cs := by
            apply underscoreToSpace_eq_self
            intro x hx
            rcases List.mem_cons.mp hx with h32 | hx2
            · omega
            · rcases List.mem_cons.mp hx2 with hh | ht
              · subst hh; exact upper_ne_underscore _ hu
              · exact (hcs x ht).2.1
          have hcap2 : capFirst (toUpperCode c :: cs) = toUpperCode c :: cs := by
            simp [capFirst, isWordCode_of_upper _ hu,
              toUpperCode_of_not_lower _ (isLowerCode_of_upper _ hu)]
          rw [hins, hund, jsTrim_cons_space _ hunospace, hcap2,
            capAfterSpace_eq_self _ hunospace]

/-- Amended claim C8: formatKeyForPdf is not idempotent on all keys
(see the counterexample on checkNumber), but it is idempotent on keys
containing no ASCII uppercase letter, no underscore and no whitespace,
such as single lowercase words, and on every key case-insensitively
equal to iban (all of which format to IBAN, a fixed point). -/
theorem formatKeyForPdf_idem_of_plain :
    (∀ k : JStr,
      (∀ c ∈ k, isUpperCode c = false ∧ c ≠ 95 ∧ isSpaceCode c = false) →
      formatKeyForPdf (formatKeyForPdf k) = formatKeyForPdf k) ∧
    (∀ k : JStr, lowerJStr k = str ("iban") →
      formatKeyForPdf (formatKeyForPdf k) = formatKeyForPdf k) := by
  constructor
  · exact formatKeyForPdf_idem_plain_aux
  · intro k hib
    have h1 : formatKeyForPdf k = str ("IBAN") := by
      rw [formatKeyForPdf, if_pos hib]
    rw [h1]
    decide

/-- Witness for the amended claim C8: formatKeyForPdf is idempotent on
the plain lowercase key amount and on the mixed-case key iBaN. -/
theorem formatKeyForPdf_idem_of_plain_witness :
    (formatKeyForPdf (formatKeyForPdf (str ("amount"))) =
      formatKeyForPdf (str ("amount"))) ∧
    (formatKeyForPdf (formatKeyForPdf (str ("iBaN"))) =
      formatKeyForPdf (str ("iBaN"))) :=
  ⟨formatKeyForPdf_idem_of_plain.1 (str ("amount")) (by decide),
   formatKeyForPdf_idem_of_plain.2 (str ("iBaN")) (by decide)⟩

/-!
Pagination logic of generatePdfReport from src/App.tsx.  The page
geometry (jsPDF millimetre values) is modelled with integers; the
renderer's running cursor currentY and the look-ahead helper
checkAndAddNewPage (lines 356-361) are embedded directly, and the
sequence of content blocks emitted by generatePdfReport is abstracted
as a list of (estimated height, cursor advance) pairs, each placed
after the look-ahead check exactly as every section of the source
does. -/

/-- Fixed page geometry of generatePdfReport: page height and margin. -/
structure PdfGeom where
  pageHeight : Int
  margin : Int
deriving DecidableEq

/-- Look-ahead helper checkAndAddNewPage from src/App.tsx (lines
356-361): given the cursor and the estimated height of the next
block, returns the cursor to place at and whether a new page was
started. -/
def checkAndAddNewPage (g : PdfGeom) (currentY spaceNeeded : Int) : Int × Bool :=
  if currentY + spaceNeeded > g.pageHeight - g.margin then (g.margin, true)
  else (currentY, false)

/-- Placement loop of generatePdfReport: each emitted block carries
its estimated height (passed to checkAndAddNewPage) and the cursor
advance applied after placing it; the result records the cursor
position each block was placed at, paired with its estimated
height. -/
def placeBlocks (g : PdfGeom) : List (Int × Int) → Int → List (Int × Int)
  | [], _ => []
  | (h, adv) :: rest, y =>
    let yb := (checkAndAddNewPage g y h).1
    (yb, h) :: placeBlocks g rest (yb + adv)

/-- Counterexample to claim C2: with the a4 geometry (page height 297,
margin 15) a single block of estimated height 280 placed at the top
margin triggers the look-ahead, is placed at the fresh margin, and its
bottom edge 15 + 280 = 295 still exceeds pageHeight - margin = 282, so
the renderer does place blocks whose bottom edge exceeds the limit. -/
theorem placeBlocks_overflow :
    placeBlocks ⟨297, 15⟩ [(280, 280)] 15 = [(15, 280)] ∧
    (15 : Int) + 280 > 297 - 15 := by decide

/-- Amended claim C2: a new page is started exactly when
y + h > pageHeight - margin and never otherwise (with the cursor reset
to the margin on a break and kept otherwise), and every placed block
whose estimated height is at most pageHeight - 2 * margin has its
estimated bottom edge within pageHeight - margin; a block taller than
the full content area (such as a tall embedded image) still overflows
after the break. -/
theorem checkAndAddNewPage_spec (g : PdfGeom) :
    (∀ y h : Int,
      ((checkAndAddNewPage g y h).2 = true ↔ y + h > g.pageHeight - g.margin) ∧
      ((checkAndAddNewPage g y h).2 = true → (checkAndAddNewPage g y h).1 = g.margin) ∧
      ((checkAndAddNewPage g y h).2 = false → (checkAndAddNewPage g y h).1 = y)) ∧
    (∀ (blocks : List (Int × Int)) (y0 : Int),
      (∀ b ∈ blocks, b.1 ≤ g.pageHeight - 2 * g.margin) →
      ∀ p ∈ placeBlocks g blocks y0, p.1 + p.2 ≤ g.pageHeight - g.margin) := by
  constructor
  · intro y h
    refine ⟨?_, ?_, ?_⟩ <;> (
      simp only [checkAndAddNewPage]
      split <;> simp_all)
  · intro blocks
    induction blocks with
    | nil => intro y0 _ p hp; cases hp
    | cons b rest ih =>
      intro y0 hb p hp
      obtain ⟨h, adv⟩ := b
      simp only [placeBlocks, List.mem_cons] at hp
      rcases hp with hp | hp
      · subst hp
        have hhb : h ≤ g.pageHeight - 2 * g.margin :=
          hb (h, adv) (List.mem_cons_self _ _)
        simp only [checkAndAddNewPage]
        split
        · simp only []
          omega
        · rename_i hcond
          simp only []
          omega
      · exact ih _ (fun x hx => hb x (List.mem_cons_of_mem _ hx)) p hp

/-- Witness for the amended claim C2: with the a4 geometry, a block of
height 40 at cursor 270 forces a break and is placed at the margin
with bottom edge 55, within the limit 282. -/
theorem checkAndAddNewPage_spec_witness :
    ((checkAndAddNewPage ⟨297, 15⟩ 270 40).2 = true ↔
      (270 : Int) + 40 > 297 - 15) ∧
    ((40 : Int) ≤ 297 - 2 * 15) ∧
    ∀ p ∈ placeBlocks ⟨297, 15⟩ [(40, 40)] 270, p.1 + p.2 ≤ 297 - 15 :=
  ⟨((checkAndAddNewPage_spec ⟨297, 15⟩).1 270 40).1, by decide,
    (checkAndAddNewPage_spec ⟨297, 15⟩).2 [(40, 40)] 270 (by decide)⟩

/-!
Timing bookkeeping of src/App.tsx: the processingTimes record and
recordTiming (lines 65-90).  The record stores, under a phase name,
an object with fields start, end and duration; the field called end
in the source is named stop here because end is reserved in Lean.
JavaScript number arguments are modelled as optional integers, none
standing for an omitted argument, and JavaScript truthiness makes
both an omitted argument and the number zero falsy. -/

/-- One entry of processingTimes: start, end (named stop) and
duration. -/
structure TimingEntry where
  start : Int
  stop : Int
  duration : Int
deriving DecidableEq

/-- JavaScript truthiness of an optional number: absent and zero are
falsy. -/
def truthyNum : Option Int → Bool
  | none => false
  | some n => !(n == 0)

/-- recordTiming from src/App.tsx (lines 65-90): when both startTime
and endTime are truthy, the phase entry becomes start, end, end minus
start; when only startTime is truthy, it becomes start, 0, 0;
otherwise the record is unchanged.  The spread update of the source
is modelled as a pointwise function update. -/
def recordTiming (times : JStr → Option TimingEntry) (phase : JStr)
    (startTime endTime : Option Int) : JStr → Option TimingEntry :=
  if truthyNum startTime && truthyNum endTime then
    fun p => if p = phase then
      some ⟨startTime.getD 0, endTime.getD 0, endTime.getD 0 - startTime.getD 0⟩
    else times p
  else if truthyNum startTime then
    fun p => if p = phase then some ⟨startTime.getD 0, 0, 0⟩ else times p
  else times

/-- Counterexample to claim C10: the call with start time 0 and end
time 5 supplies both times, so the claim demands the entry become
start 0, end 5, duration 5; but 0 is falsy in JavaScript, both guards
of recordTiming fail, and the record is left unchanged. -/
theorem recordTiming_zero_start :
    recordTiming (fun _ => none) (str ("modelFetch")) (some 0) (some 5)
        (str ("modelFetch")) = none ∧
    (none : Option TimingEntry) ≠ some ⟨0, 5, 5⟩ := by decide

/-- Amended claim C10: recordTiming modifies only the entry of the
phase it is given; when both start and end times are supplied and
nonzero the phase entry becomes start, end, duration = end - start;
when the start time is supplied and nonzero but the end time is
absent or zero it becomes start, 0, 0; and when the start time is
absent or zero (falsy in JavaScript) the whole record is unchanged. -/
theorem recordTiming_spec (times : JStr → Option TimingEntry) (phase : JStr)
    (startTime endTime : Option Int) :
    (∀ q, q ≠ phase → recordTiming times phase startTime endTime q = times q) ∧
    (truthyNum startTime = true → truthyNum endTime = true →
      recordTiming times phase startTime endTime phase =
        some ⟨startTime.getD 0, endTime.getD 0,
          endTime.getD 0 - startTime.getD 0⟩) ∧
    (truthyNum startTime = true → truthyNum endTime = false →
      recordTiming times phase startTime endTime phase =
        some ⟨startTime.getD 0, 0, 0⟩) ∧
    (truthyNum startTime = false →
      recordTiming times phase startTime endTime = times) := by
  refine ⟨?_, ?_, ?_, ?_⟩
  · intro q hq
    simp only [recordTiming]
    split_ifs <;> simp [hq]
  · intro hs he
    simp [recordTiming, hs, he]
  · intro hs he
    simp [recordTiming, hs, he]
  · intro hs
    simp [recordTiming, hs]

/-!
Error-message derivation of src/App.tsx.  fetchOllamaModels (lines
136-143) and processSingleImage (lines 237-254) derive a display
message from a non-2xx HTTP response: the JSON body (or a synthesized
body when JSON parsing fails) is consulted for its detail (and, for
the analysis endpoint, message) field with JavaScript truthiness, and
a fallback mentioning the status code is used otherwise. -/

/-- Fuel-bounded decimal digit expansion. -/
def natStrAux : Nat → Nat → JStr
  | 0, _ => []
  | fuel + 1, n =>
    if n < 10 then [48 + n] else natStrAux fuel (n / 10) ++ [48 + n % 10]

/-- Decimal representation of a number as code points, modelling the
JavaScript template interpolation of response.status. -/
def natStr (n : Nat) : JStr := natStrAux (n + 1) n

theorem natStr_ne_nil (n : Nat) : natStr n ≠ [] := by
  unfold natStr
  simp only [natStrAux]
  split
  · simp
  · simp

/-- Shape of the JSON error bodies of both backend endpoints: optional
detail and message string fields; a missing field is none. -/
structure ErrBody where
  detail : Option JStr
  message : Option JStr
deriving DecidableEq

/-- JavaScript logical-or on an optional string operand: the fallback
is used when the field is absent or the empty string (both falsy). -/
def jsOrStr (o : Option JStr) (fallback : JStr) : JStr :=
  match o with
  | some s => if s = [] then fallback else s
  | none => fallback

/-- JavaScript truthiness of an optional string field. -/
def truthyStr : Option JStr → Bool
  | none => false
  | some s => !s.isEmpty

/-- Error body used by fetchOllamaModels: the parsed JSON body, or on
a JSON parse failure the synthesized object with only a detail field
built from the status and reason phrase (lines 137-139). -/
def modelFetchErrorData (status : Nat) (statusText : JStr)
    (body : Option ErrBody) : ErrBody :=
  match body with
  | some b => b
  | none =>
    ⟨some (str ("Failed to fetch models (HTTP ") ++ natStr status ++
      str ("): ") ++ statusText ++
      str (". Is the backend server at http://localhost:8000 running?")), none⟩

/-- Derived error message of fetchOllamaModels for a non-2xx response
(lines 140-141): the detail field if truthy, else a fallback naming
the status code.  The message field is never consulted here. -/
def modelFetchDetailMessage (status : Nat) (statusText : JStr)
    (body : Option ErrBody) : JStr :=
  jsOrStr (modelFetchErrorData status statusText body).detail
    (str ("Failed to fetch models: ") ++ natStr status)

/-- Error body used by processSingleImage: the parsed JSON body, or on
a JSON parse failure a synthesized object with both message and detail
fields built from the status and reason phrase (lines 238-246). -/
def ocrCheckErrorData (status : Nat) (statusText : JStr)
    (body : Option ErrBody) : ErrBody :=
  match body with
  | some b => b
  | none =>
    ⟨some (str ("Server error (HTTP ") ++ natStr status ++ str ("): ") ++
      statusText ++
      str (". Is the backend server at http://localhost:8000 running?")),
     some (str ("Server error (HTTP ") ++ natStr status ++ str ("): ") ++
      statusText)⟩

/-- Derived error message of processSingleImage for a non-2xx response
(lines 248-251): detail if truthy, else message if truthy, else a
fallback naming the status code. -/
def ocrCheckDetailMessage (status : Nat) (statusText : JStr)
    (body : Option ErrBody) : JStr :=
  jsOrStr (ocrCheckErrorData status statusText body).detail
    (jsOrStr (ocrCheckErrorData status statusText body).message
      (str ("Server error: ") ++ natStr status))

/-- Counterexample to claim C5: for a 500 response from the model-list
endpoint whose JSON body carries a present but empty detail field, the
claim demands that the derived message equal that field, but the code
treats the empty string as falsy and yields the synthesized fallback
instead. -/
theorem modelFetchDetailMessage_empty_detail :
    (modelFetchErrorData 500 [] (some ⟨some [], none⟩)).detail = some [] ∧
    modelFetchDetailMessage 500 [] (some ⟨some [], none⟩) =
      str ("Failed to fetch models: 500") ∧
    str ("Failed to fetch models: 500") ≠ [] := by decide

theorem append_ne_nil_left (a b : JStr) (h : a ≠ []) : a ++ b ≠ [] := by
  intro hc
  rw [List.append_eq_nil] at hc
  exact h hc.1

theorem jsOrStr_ne_nil (o : Option JStr) (fb : JStr) (hfb : fb ≠ []) :
    jsOrStr o fb ≠ [] := by
  cases o with
  | none => exact hfb
  | some s =>
    simp only [jsOrStr]
    split
    · exact hfb
    · assumption

theorem truthyStr_eq_false_iff (o : Option JStr) :
    truthyStr o = false ↔ (o = none ∨ o = some []) := by
  cases o with
  | none => simp [truthyStr]
  | some s => simp [truthyStr, List.isEmpty_iff]

theorem infix_append_right {l x : JStr} (y : JStr) (h : l <:+: x) :
    l <:+: x ++ y :=
  h.trans ( List.prefix_append x y).isInfix

theorem natStr_infix_suffix (a : JStr) (n : Nat) : natStr n <:+: a ++ natStr n :=
  ( List.suffix_append a (natStr n)).isInfix

/-- Amended claim C5: for every HTTP response with status outside the
2xx range, from either endpoint, the derived error message is
non-empty; it equals the body's detail field whenever that field is
present and non-empty; when detail is falsy the analysis endpoint
falls back to a truthy message field (the model-list handler never
consults message); and in all remaining cases, including a JSON body
that fails to parse, the message is a synthesized fallback containing
the decimal status code. -/
theorem derivedErrorMessage_spec (status : Nat) (statusText : JStr)
    (body : Option ErrBody) (_hstatus : status < 200 ∨ 299 < status) :
    (modelFetchDetailMessage status statusText body ≠ [] ∧
     ocrCheckDetailMessage status statusText body ≠ []) ∧
    (∀ b, body = some b → ∀ d, b.detail = some d → d ≠ [] →
      modelFetchDetailMessage status statusText body = d ∧
      ocrCheckDetailMessage status statusText body = d) ∧
    (∀ b, body = some b → truthyStr b.detail = false →
      ∀ m, b.message = some m → m ≠ [] →
        ocrCheckDetailMessage status statusText body = m) ∧
    (∀ b, body = some b → truthyStr b.detail = false →
      natStr status <:+: modelFetchDetailMessage status statusText body) ∧
    (∀ b, body = some b → truthyStr b.detail = false →
      truthyStr b.message = false →
      natStr status <:+: ocrCheckDetailMessage status statusText body) ∧
    (body = none →
      natStr status <:+: modelFetchDetailMessage status statusText body ∧
      natStr status <:+: ocrCheckDetailMessage status statusText body) := by
  refine ⟨⟨?_, ?_⟩, ?_, ?_, ?_, ?_, ?_⟩
  · exact jsOrStr_ne_nil _ _ (append_ne_nil_left _ _ (by decide))
  · exact jsOrStr_ne_nil _ _
      (jsOrStr_ne_nil _ _ (append_ne_nil_left _ _ (by decide)))
  · rintro b rfl d hd hdne
    constructor
    · simp [modelFetchDetailMessage, modelFetchErrorData, hd, jsOrStr, hdne]
    · simp [ocrCheckDetailMessage, ocrCheckErrorData, hd, jsOrStr, hdne]
  · rintro b rfl hdf m hm hmne
    rcases (truthyStr_eq_false_iff _).mp hdf with hdn | hde
    · simp [ocrCheckDetailMessage, ocrCheckErrorData, hdn, hm, jsOrStr, hmne]
    · simp [ocrCheckDetailMessage, ocrCheckErrorData, hde, hm, jsOrStr, hmne]
  · rintro b rfl hdf
    have hmsg : modelFetchDetailMessage status statusText (some b) =
        str ("Failed to fetch models: ") ++ natStr status := by
      rcases (truthyStr_eq_false_iff _).mp hdf with hdn | hde
      · simp [modelFetchDetailMessage, modelFetchErrorData, hdn, jsOrStr]
      · simp [modelFetchDetailMessage, modelFetchErrorData, hde, jsOrStr]
    rw [hmsg]
    exact natStr_infix_suffix _ status
  · rintro b rfl hdf hmf
    have hmsg : ocrCheckDetailMessage status statusText (some b) =
        str ("Server error: ") ++ natStr status := by
      rcases (truthyStr_eq_false_iff _).mp hdf with hdn | hde
      · rcases (truthyStr_eq_false_iff _).mp hmf with hmn | hme
        · simp [ocrCheckDetailMessage, ocrCheckErrorData, hdn, hmn, jsOrStr]
        · simp [ocrCheckDetailMessage, ocrCheckErrorData, hdn, hme, jsOrStr]
      · rcases (truthyStr_eq_false_iff _).mp hmf with hmn | hme
        · simp [ocrCheckDetailMessage, ocrCheckErrorData, hde, hmn, jsOrStr]
        · simp [ocrCheckDetailMessage, ocrCheckErrorData, hde, hme, jsOrStr]
    rw [hmsg]
    exact natStr_infix_suffix _ status
  · rintro rfl
    constructor
    · have hmsg : modelFetchDetailMessage status statusText none =
          str ("Failed to fetch models (HTTP ") ++ natStr status ++
            str ("): ") ++ statusText ++
            str (". Is the backend server at http://localhost:8000 running?") := by
        simp only [modelFetchDetailMessage, modelFetchErrorData, jsOrStr]
        rw [if_neg (append_ne_nil_left _ _ (append_ne_nil_left _ _
          (append_ne_nil_left _ _ (append_ne_nil_left _ _ (by decide)))))]
      rw [hmsg]
      exact infix_append_right _ (infix_append_right _ (infix_append_right _
        (natStr_infix_suffix _ status)))
    · have hmsg : ocrCheckDetailMessage status statusText none =
          str ("Server error (HTTP ") ++ natStr status ++ str ("): ") ++
            statusText ++
            str (". Is the backend server at http://localhost:8000 running?") := by
        simp only [ocrCheckDetailMessage, ocrCheckErrorData, jsOrStr]
        rw [if_neg (append_ne_nil_left _ _ (append_ne_nil_left _ _
          (append_ne_nil_left _ _ (append_ne_nil_left _ _ (by decide)))))]
      rw [hmsg]
      exact infix_append_right _ (infix_append_right _ (infix_append_right _
        (natStr_infix_suffix _ status)))

/-- Witness for the amended claim C5: a 404 with an unparseable body
yields non-empty derived messages containing 404 on both endpoints. -/
theorem derivedErrorMessage_spec_witness :
    (modelFetchDetailMessage 404 (str ("Not Found")) none ≠ [] ∧
     ocrCheckDetailMessage 404 (str ("Not Found")) none ≠ []) ∧
    natStr 404 <:+: modelFetchDetailMessage 404 (str ("Not Found")) none ∧
    natStr 404 <:+: ocrCheckDetailMessage 404 (str ("Not Found")) none :=
  ⟨(derivedErrorMessage_spec 404 (str ("Not Found")) none (by decide)).1,
   (derivedErrorMessage_spec 404 (str ("Not Found")) none (by decide)).2.2.2.2.2 rfl⟩

/-- Witness for the amended claim C10: a concrete call with start 3
and end 10 writes entry start 3, end 10, duration 7 for its phase and
leaves another phase alone. -/
theorem recordTiming_spec_witness :
    recordTiming (fun _ => none) (str ("modelFetch")) (some 3) (some 10)
        (str ("imageUpload")) = none ∧
    recordTiming (fun _ => none) (str ("modelFetch")) (some 3) (some 10)
        (str ("modelFetch")) = some ⟨3, 10, 7⟩ :=
  ⟨(recordTiming_spec (fun _ => none) (str ("modelFetch"))
      (some 3) (some 10)).1 _ (by decide),
   (recordTiming_spec (fun _ => none) (str ("modelFetch"))
      (some 3) (some 10)).2.1 (by decide) (by decide)⟩

/-!
The App component state of src/App.tsx and its handlers.  The useState
cells are collected into an AppState record.  The processingTimes cell
is modelled separately by recordTiming and is omitted from AppState,
since no handler's control flow depends on it.  Network interaction is
modelled by environments giving, per file, the outcome of the
FileReader read and of the analysis-endpoint fetch; each handler also
returns the list of files for which the analysis endpoint was actually
contacted. -/

/-- One entry of the model list returned by the backend. -/
structure OllamaModel where
  name : JStr
deriving DecidableEq

/-- Per-model analysis outcome inside a successful response. -/
structure LLMAnalysis where
  model_name : JStr
  analysis : Option (List (JStr × JStr))
  error : Option JStr
deriving DecidableEq

/-- Parsed success body of the analysis endpoint. -/
structure CheckAnalysisResponse where
  raw_ocr_tesseract : Option JStr
  raw_ocr_easyocr : Option JStr
  llm_analyses : List LLMAnalysis
  processing_time : Option Nat
deriving DecidableEq

/-- One aggregated result per successfully processed image. -/
structure CheckResult where
  imageSrc : JStr
  ocrTesseract : Option JStr
  ocrEasyOcr : Option JStr
  llmAnalyses : List LLMAnalysis
deriving DecidableEq

/-- A surfaced failure: the phase label and a display message. -/
structure ProcessingError where
  step : JStr
  message : JStr
deriving DecidableEq

/-- The useState cells of the App component. -/
structure AppState where
  uploadedImage : Option JStr
  ocrTesseract : Option JStr
  ocrEasyOcr : Option JStr
  llmAnalyses : Option (List LLMAnalysis)
  checkResults : List CheckResult
  isLoading : Bool
  error : Option ProcessingError
  currentStep : JStr
  availableOllamaModels : List OllamaModel
  selectedOllamaModels : List JStr
  showSetupModal : Bool
deriving DecidableEq

/-- All-empty initial component state. -/
def emptyAppState : AppState :=
  ⟨none, none, none, none, [], false, none, [], [], [], false⟩

/-- Outcome of reading one file into a data URL. -/
inductive ReadResult where
  | failure
  | ok (dataUrl : JStr)
deriving DecidableEq

/-- Outcome of one POST to the analysis endpoint: a non-2xx response
with its parsed body, a network-level rejection, or a parsed success
body. -/
inductive FetchResult where
  | httpError (status : Nat) (statusText : JStr) (body : Option ErrBody)
  | netFailure (message : JStr)
  | ok (data : CheckAnalysisResponse)
deriving DecidableEq

/-- Environment for a batch: per-file read and fetch outcomes. -/
structure FileEnv where
  read : Nat → ReadResult
  fetch : Nat → FetchResult

/-- Effect of the source's checkForSetupError call: the modal flag is
raised when the classifier fires, otherwise kept. -/
def applySetupCheck (st : AppState) (message : JStr) : AppState :=
  { st with showSetupModal := st.showSetupModal || checkForSetupError message }

/-- Prologue of fetchOllamaModels (lines 123-127): loading is set, the
step label written and the previous error cleared before anything
else happens. -/
def fetchOllamaModelsInit (st : AppState) : AppState :=
  { st with isLoading := true,
            currentStep := str ("Fetching available LLM models from Ollama..."),
            error := none }

/-- Outcome of the model-list request. -/
inductive ModelsFetchOutcome where
  | httpError (status : Nat) (statusText : JStr) (body : Option ErrBody)
  | netFailure (message : JStr)
  | ok (models : List OllamaModel)
deriving DecidableEq

/-- fetchOllamaModels from src/App.tsx (lines 122-171) as a state
transformer over the request outcome: on a non-2xx response the
derived detail message is classified, surfaced as a Model Fetch error
and classified again from the catch block; on a network rejection the
thrown message is surfaced and classified; on success the model list
replaces the available list and the first model is selected when
nothing was selected; the finally block clears loading and the step
label. -/
def fetchOllamaModels (outcome : ModelsFetchOutcome) (st : AppState) : AppState :=
  let st0 := fetchOllamaModelsInit st
  match outcome with
  | .httpError status statusText body =>
    let detailMessage := modelFetchDetailMessage status statusText body
    let st1 := applySetupCheck st0 detailMessage
    let st2 := { st1 with error := some ⟨str ("Model Fetch"), detailMessage⟩ }
    let st3 := applySetupCheck st2 detailMessage
    { st3 with isLoading := false, currentStep := [] }
  | .netFailure message =>
    let st1 := { st0 with error := some ⟨str ("Model Fetch"), message⟩ }
    let st2 := applySetupCheck st1 message
    { st2 with isLoading := false, currentStep := [] }
  | .ok models =>
    let st1 := { st0 with availableOllamaModels := models }
    let st2 :=
      if 0 < models.length ∧ st1.selectedOllamaModels.length = 0 then
        { st1 with selectedOllamaModels := [(models.headD ⟨[]⟩).name] }
      else st1
    { st2 with isLoading := false, currentStep := [] }

/-- Prologue of processSingleImage (lines 190-192): the previous error
and step label are cleared before any file work starts (the source
also resets processingTimes, which is modelled by recordTiming and not
part of AppState). -/
def processSingleImageInit (st : AppState) : AppState :=
  { st with error := none, currentStep := [] }

/-- processSingleImage from src/App.tsx (lines 185-297): clears error
state, reads the file (an Image Upload error on failure, no network
call), stores the data URL, posts to the analysis endpoint, and on a
non-2xx response or network rejection surfaces a Check Processing
error after running the setup classifier; on success the OCR texts and
analyses are stored and a CheckResult is returned.  The second
component is the returned CheckResult (null on failure), the third the
list of files for which the analysis endpoint was contacted. -/
def processSingleImage (env : FileEnv) (st : AppState) (file : Nat) :
    AppState × Option CheckResult × List Nat :=
  let st0 := processSingleImageInit st
  match env.read file with
  | .failure =>
    let readError : ProcessingError :=
      ⟨str ("Image Upload"), str ("Failed to read file.")⟩
    ({ st0 with error := some readError }, none, [])
  | .ok dataUrl =>
    let stepLabel := str ("Processing image and extracting text...")
    let st1 := { st0 with uploadedImage := some dataUrl, currentStep := stepLabel }
    match env.fetch file with
    | .httpError status statusText body =>
      let detailMessage := ocrCheckDetailMessage status statusText body
      let procError : ProcessingError :=
        ⟨str ("Check Processing"),
         str ("Failed to process check: ") ++ detailMessage⟩
      let st2 := applySetupCheck st1 detailMessage
      let st3 := { st2 with error := some procError }
      let st4 := applySetupCheck st3 detailMessage
      (st4, none, [file])
    | .netFailure message =>
      let procError : ProcessingError :=
        ⟨str ("Check Processing"),
         str ("Failed to process check: ") ++ message⟩
      let st2 := { st1 with error := some procError }
      let st3 := applySetupCheck st2 message
      (st3, none, [file])
    | .ok data =>
      let st2 := { st1 with
                   currentStep := str ("Analyzing with AI models..."),
                   ocrTesseract := data.raw_ocr_tesseract,
                   ocrEasyOcr := data.raw_ocr_easyocr,
                   llmAnalyses := some data.llm_analyses }
      (st2, some ⟨dataUrl, data.raw_ocr_tesseract, data.raw_ocr_easyocr,
        data.llm_analyses⟩, [file])

/-- Sequential batch loop of handleImagesUpload (lines 312-317): each
file is processed to completion before the next, and each returned
CheckResult is appended to the result list. -/
def processBatch (env : FileEnv) : List Nat → AppState → AppState × List Nat
  | [], st => (st, [])
  | file :: rest, st =>
    let step := processSingleImage env st file
    let st2 :=
      match step.2.1 with
      | some result =>
        { step.1 with checkResults := step.1.checkResults ++ [result] }
      | none => step.1
    let restOut := processBatch env rest st2
    (restOut.1, step.2.2 ++ restOut.2)

/-- handleImagesUpload from src/App.tsx (lines 299-322): with no model
selected a Setup error is set and nothing else happens; otherwise the
result list is reset, loading is raised, the files are processed
sequentially and loading and the step label are cleared at the end. -/
def setupSelectionError : ProcessingError :=
  ⟨str ("Setup"),
   str ("Please select at least one Ollama model to proceed with analysis.")⟩

def handleImagesUpload (env : FileEnv) (files : List Nat) (st : AppState) :
    AppState × List Nat :=
  if st.selectedOllamaModels.length = 0 then
    ({ st with error := some setupSelectionError }, [])
  else
    let st0 := { st with checkResults := [], isLoading := true }
    let out := processBatch env files st0
    ({ out.1 with isLoading := false, currentStep := [] }, out.2)

/-- Claim C1: with an empty model selection, handleImagesUpload makes
no network call for any list of input files, sets a Setup-step error,
and changes nothing else of the state. -/
theorem handleImagesUpload_empty_models (env : FileEnv) (files : List Nat)
    (st : AppState) (h : st.selectedOllamaModels = []) :
    handleImagesUpload env files st =
      ({ st with error := some setupSelectionError }, []) ∧
    setupSelectionError.step = str ("Setup") := by
  exact ⟨by rw [handleImagesUpload, if_pos (by simp [h])], rfl⟩

/-- Witness for claim C1: a concrete two-file upload on the empty
initial state performs no network call and only sets the Setup
error. -/
theorem handleImagesUpload_empty_models_witness :
    handleImagesUpload ⟨fun _ => .failure, fun _ => .netFailure []⟩ [0, 1]
        emptyAppState =
      ({ emptyAppState with error := some setupSelectionError }, []) ∧
    setupSelectionError.step = str ("Setup") :=
  handleImagesUpload_empty_models ⟨fun _ => .failure, fun _ => .netFailure []⟩
    [0, 1] emptyAppState rfl

/-- Per-file outcome of one submission, as a function of the
environment alone: the CheckResult produced on success, none on a
read failure, a non-2xx response or a network rejection. -/
def singleResult (env : FileEnv) (file : Nat) : Option CheckResult :=
  match env.read file with
  | .failure => none
  | .ok dataUrl =>
    match env.fetch file with
    | .ok data =>
      some ⟨dataUrl, data.raw_ocr_tesseract, data.raw_ocr_easyocr,
        data.llm_analyses⟩
    | .httpError _ _ _ => none
    | .netFailure _ => none

theorem processSingleImage_result (env : FileEnv) (st : AppState) (file : Nat) :
    (processSingleImage env st file).2.1 = singleResult env file := by
  unfold processSingleImage singleResult
  cases env.read file with
  | failure => rfl
  | ok d =>
    cases env.fetch file with
    | httpError s t b => rfl
    | netFailure m => rfl
    | ok data => rfl

theorem processSingleImage_checkResults (env : FileEnv) (st : AppState)
    (file : Nat) :
    (processSingleImage env st file).1.checkResults = st.checkResults := by
  unfold processSingleImage processSingleImageInit applySetupCheck
  cases env.read file with
  | failure => rfl
  | ok d =>
    cases env.fetch file with
    | httpError s t b => rfl
    | netFailure m => rfl
    | ok data => rfl

theorem processBatch_checkResults (env : FileEnv) :
    ∀ (files : List Nat) (st : AppState),
      (processBatch env files st).1.checkResults =
        st.checkResults ++ files.filterMap (singleResult env)
  | [], st => by simp [processBatch]
  | file :: rest, st => by
    have hres := processSingleImage_result env st file
    simp only [processBatch]
    cases hsr : singleResult env file with
    | none =>
      rw [hsr] at hres
      rw [hres]
      rw [processBatch_checkResults env rest _]
      rw [processSingleImage_checkResults]
      simp [List.filterMap_cons, hsr]
    | some r =>
      rw [hsr] at hres
      rw [hres]
      rw [processBatch_checkResults env rest _]
      simp [processSingleImage_checkResults, List.filterMap_cons, hsr]

/-- Claim C3: for every batch with a non-empty model selection, the
result list is reset at batch start and ends as exactly the ordered
per-file successes: one CheckResult per file whose processing
succeeds, in submission order, with failing files contributing
nothing and not stopping the rest of the batch. -/
theorem handleImagesUpload_results (env : FileEnv) (files : List Nat)
    (st : AppState) (h : st.selectedOllamaModels ≠ []) :
    (handleImagesUpload env files st).1.checkResults =
      files.filterMap (singleResult env) := by
  rw [handleImagesUpload, if_neg (by simp [h])]
  show (processBatch env files _).1.checkResults = _
  rw [processBatch_checkResults]
  simp

/-- Witness for claim C3: a three-file batch whose second file fails
with a network error ends with exactly the two CheckResults of files
one and three, in order. -/
theorem handleImagesUpload_results_witness :
    (handleImagesUpload
      ⟨fun _ => .ok (str ("img")),
       fun file => if file = 1 then .netFailure (str ("network error"))
         else .ok ⟨some (str ("t")), none, [], none⟩⟩
      [0, 1, 2]
      { emptyAppState with selectedOllamaModels := [str ("llava")] }).1.checkResults =
      [⟨str ("img"), some (str ("t")), none, []⟩,
       ⟨str ("img"), some (str ("t")), none, []⟩] := by
  rw [handleImagesUpload_results
    ⟨fun _ => .ok (str ("img")),
     fun file => if file = 1 then .netFailure (str ("network error"))
       else .ok ⟨some (str ("t")), none, [], none⟩⟩
    [0, 1, 2]
    { emptyAppState with selectedOllamaModels := [str ("llava")] }
    (by decide)]
  decide

/-- Render guard of the results panel (src/App.tsx line 969): not
loading, at least one result, and no error. -/
def resultsPanelVisible (st : AppState) : Bool :=
  !st.isLoading && decide (0 < st.checkResults.length) && st.error.isNone

/-- Render guard of the error panel (src/App.tsx line 961): an error
is present and the setup modal is not showing. -/
def errorPanelVisible (st : AppState) : Bool :=
  st.error.isSome && !st.showSetupModal

/-- Claim C4: in every state, when the results panel renders the error
is null and the error panel does not render, so a ProcessingError and
a non-empty result list are never displayed together; and both the
model fetch and the processing of an image clear the error in their
prologue, before proceeding. -/
theorem errorResultsExclusion (st : AppState) :
    (resultsPanelVisible st = true →
      st.error = none ∧ errorPanelVisible st = false) ∧
    (fetchOllamaModelsInit st).error = none ∧
    (processSingleImageInit st).error = none := by
  refine ⟨?_, rfl, rfl⟩
  intro h
  simp only [resultsPanelVisible, Bool.and_eq_true] at h
  obtain ⟨⟨_, _⟩, herr⟩ := h
  have hnone : st.error = none := Option.isNone_iff_eq_none.mp herr
  refine ⟨hnone, ?_⟩
  simp [errorPanelVisible, hnone]

/-- Witness for claim C4: a concrete state with one result, no error
and no loading renders the results panel, and the theorem yields that
its error is null and the error panel is hidden. -/
theorem errorResultsExclusion_witness :
    { emptyAppState with checkResults := [⟨[], none, none, []⟩] }.error = none ∧
    errorPanelVisible
      { emptyAppState with checkResults := [⟨[], none, none, []⟩] } = false :=
  (errorResultsExclusion
    { emptyAppState with checkResults := [⟨[], none, none, []⟩] }).1 (by decide)

/-- Claim C9: a successful model fetch replaces the available model
list with the returned one; the first returned model becomes the
selection exactly when the returned list is non-empty and the current
selection is empty, the selection is otherwise left as it is, and in
particular a fetch never alters a non-empty selection. -/
theorem fetchOllamaModels_ok_spec :
    (∀ (models : List OllamaModel) (st : AppState),
      (fetchOllamaModels (.ok models) st).availableOllamaModels = models) ∧
    (∀ (m : OllamaModel) (rest : List OllamaModel) (st : AppState),
      (fetchOllamaModels (.ok (m :: rest)) st).selectedOllamaModels =
        (if st.selectedOllamaModels = [] then [m.name]
         else st.selectedOllamaModels)) ∧
    (∀ st : AppState,
      (fetchOllamaModels (.ok []) st).selectedOllamaModels =
        st.selectedOllamaModels) ∧
    (∀ (models : List OllamaModel) (st : AppState),
      st.selectedOllamaModels ≠ [] →
      (fetchOllamaModels (.ok models) st).selectedOllamaModels =
        st.selectedOllamaModels) := by
  have hsel : ∀ (models : List OllamaModel) (st : AppState),
      (fetchOllamaModels (.ok models) st).selectedOllamaModels =
        (if 0 < models.length ∧ st.selectedOllamaModels.length = 0 then
          [(models.headD ⟨[]⟩).name]
         else st.selectedOllamaModels) := by
    intro models st
    simp only [fetchOllamaModels, fetchOllamaModelsInit]
    split_ifs with hc
    · rfl
    · rfl
  refine ⟨?_, ?_, ?_, ?_⟩
  · intro models st
    simp only [fetchOllamaModels, fetchOllamaModelsInit]
    split_ifs with hc
    · rfl
    · rfl
  · intro m rest st
    rw [hsel]
    by_cases hempty : st.selectedOllamaModels = []
    · rw [if_pos (by simp [hempty]), if_pos hempty]
      rfl
    · rw [if_neg (by simp [List.length_eq_zero, hempty]), if_neg hempty]
  · intro st
    rw [hsel, if_neg (by simp)]
  · intro models st hne
    rw [hsel, if_neg (by simp [List.length_eq_zero, hne])]

/-- Witness for claim C9: fetching the one-model list llava while the
model x is already selected leaves the selection unchanged. -/
theorem fetchOllamaModels_ok_spec_witness :
    (fetchOllamaModels (.ok [⟨str ("llava")⟩])
      { emptyAppState with selectedOllamaModels := [str ("x")] }).selectedOllamaModels =
      [str ("x")] :=
  fetchOllamaModels_ok_spec.2.2.2 [⟨str ("llava")⟩]
    { emptyAppState with selectedOllamaModels := [str ("x")] } (by decide)
